import Mathlib

/-!
Verification development for the track-engine core of the `performer`
step-sequencer firmware.  The definitions below are shallow embeddings of the
C++ sources (`NoteTrackEngine.cpp`, `CurveTrackEngine.cpp`, `Settings.cpp`,
`MidiCvTrack.h`): machine integers are modelled as `Int`/`Nat`, the
process-wide RNG is modelled by passing each drawn sample explicitly, and the
mutable reference parameter `prevCondition` is modelled by returning the new
value alongside the result.
-/

/-- Shallow embedding of the firmware's `clamp(value, min, max)` helper from
`core/math/Math.h` (not among the given sources; standard clamp semantics:
values below `lo` map to `lo`, values above `hi` map to `hi`). -/
def clampI (x lo hi : Int) : Int :=
  if x < lo then lo else if hi < x then hi else x

/-- Step condition enumeration from `Types::Condition` (`Off`, `Fill`,
`NotFill`, `Pre`, `NotPre`, `First`, `NotFirst`, and the `Loop` family which
`Types::conditionLoop` decodes into a `(base, offset)` pair). -/
inductive StepCondition where
  | off
  | fillCond
  | notFillCond
  | pre
  | notPre
  | first
  | notFirst
  | loop (base : Nat) (offset : Nat)
  deriving DecidableEq, Repr

/-- Fill mode of a note track (`NoteTrack::FillMode`), as used by
`NoteTrackEngine::triggerStep`. -/
inductive NoteFillMode where
  | none
  | gates
  | nextPattern
  | condition
  deriving DecidableEq, Repr

/-- Fill mode of a curve track (`CurveTrack::FillMode`), as used by
`CurveTrackEngine::triggerStep`. -/
inductive CurveFillMode where
  | none
  | variation
  | nextPattern
  | invert
  deriving DecidableEq, Repr

/-- One step of a note sequence (`NoteSequence::Step`), restricted to the
fields read and written by the engine code under verification.  Stored field
values are modelled as unbounded integers; the bit-field ranges enter through
the explicit `Max`/`Range` parameters of the evaluation functions. -/
structure NoteStep where
  gate : Bool
  gateProbability : Int
  gateOffset : Int
  retrigger : Nat
  retriggerProbability : Int
  length : Int
  lengthVariationRange : Int
  lengthVariationProbability : Int
  note : Int
  noteVariationRange : Int
  noteVariationProbability : Int
  slide : Bool
  condition : StepCondition
  deriving DecidableEq, Repr

/-- Embedding of `evalStepGate` (`NoteTrackEngine.cpp`): the step gate passes
when `step.gate()` is set and the drawn sample
`rng.nextRange(GateProbability::Range)` is `<=` the bias-adjusted probability
`clamp(step.gateProbability() + probabilityBias, -1, GateProbability::Max)`.
The RNG draw is modelled by the explicit argument `gateSample`. -/
def evalStepGate (step : NoteStep) (probabilityBias : Int) (gateProbMax : Int)
    (gateSample : Nat) : Bool :=
  step.gate && decide ((gateSample : Int) ≤
    clampI (step.gateProbability + probabilityBias) (-1) gateProbMax)

/-- Embedding of the gate decision of `NoteTrackEngine::triggerStep` before
the condition test: `bool stepGate = evalStepGate(step, bias) || useFillGates`
where `useFillGates = fillStep && fillMode == FillMode::Gates`. -/
def triggerStepGate (step : NoteStep) (probabilityBias : Int) (gateProbMax : Int)
    (gateSample : Nat) (fillStep : Bool) (fillMode : NoteFillMode) : Bool :=
  evalStepGate step probabilityBias gateProbMax gateSample ||
    (fillStep && fillMode == NoteFillMode.gates)

/-- Embedding of `evalStepCondition` (`NoteTrackEngine.cpp`).  The C++
function takes `bool &prevCondition` by reference; the embedding returns the
pair `(result, new prevCondition)`. -/
def evalStepCondition (cond : StepCondition) (iteration : Nat) (fillFlag : Bool)
    (prevCondition : Bool) : Bool × Bool :=
  match cond with
  | .off => (true, prevCondition)
  | .fillCond => (fillFlag, fillFlag)
  | .notFillCond => (!fillFlag, !fillFlag)
  | .pre => (prevCondition, prevCondition)
  | .notPre => (!prevCondition, prevCondition)
  | .first => (decide (iteration = 0), decide (iteration = 0))
  | .notFirst => (decide (iteration ≠ 0), decide (iteration ≠ 0))
  | .loop base offset =>
      (decide (iteration % base = offset), decide (iteration % base = offset))

/-- Embedding of the fill-step decision shared by
`NoteTrackEngine::triggerStep` and `CurveTrackEngine::triggerStep`:
`bool fillStep = fill() && (rng.nextRange(100) < uint32_t(fillAmount()))`.
The RNG draw `rng.nextRange(100)` is modelled by the argument `fillSample`. -/
def evalFillStep (fillHeld : Bool) (fillSample : Nat) (fillAmount : Nat) : Bool :=
  fillHeld && decide (fillSample < fillAmount)

/-- Embedding of the three fill flags computed by
`NoteTrackEngine::triggerStep` (lines 265-267): `useFillGates`,
`useFillSequence`, `useFillCondition`. -/
def noteFillFlags (fillStep : Bool) (fillMode : NoteFillMode) : Bool × Bool × Bool :=
  (fillStep && fillMode == NoteFillMode.gates,
   fillStep && fillMode == NoteFillMode.nextPattern,
   fillStep && fillMode == NoteFillMode.condition)

/-- Embedding of the fill-mode latch in `CurveTrackEngine::triggerStep`:
`_fillMode = fillStep ? _curveTrack.fillMode() : CurveTrack::FillMode::None`. -/
def curveFillModeLatch (fillStep : Bool) (fillMode : CurveFillMode) : CurveFillMode :=
  if fillStep then fillMode else CurveFillMode.none

/-- Embedding of the fill-source selection in
`NoteTrackEngine::changePattern` and `CurveTrackEngine::changePattern`:
`_fillSequence = &track.sequence(std::min(pattern() + 1, CONFIG_PATTERN_COUNT - 1))`.
`patternCount` stands for the configuration constant `CONFIG_PATTERN_COUNT`. -/
def fillSequenceIndex (pattern : Nat) (patternCount : Nat) : Nat :=
  min (pattern + 1) (patternCount - 1)

/-- C1: `evalStepGate` returns true iff `step.gate` is set and the fresh
uniform sample is `≤ clamp(step.gateProbability + bias, -1, Max)`; and in
`triggerStep`, an active fill step with `fillMode == Gates` makes the step
gate pass unconditionally. -/
theorem evalStepGate_spec (step : NoteStep) (probabilityBias gateProbMax : Int)
    (gateSample : Nat) (fillStep : Bool) :
    (evalStepGate step probabilityBias gateProbMax gateSample = true ↔
      step.gate = true ∧ (gateSample : Int) ≤
        clampI (step.gateProbability + probabilityBias) (-1) gateProbMax) ∧
    (fillStep = true →
      triggerStepGate step probabilityBias gateProbMax gateSample fillStep
        NoteFillMode.gates = true) := by
  constructor
  · simp [evalStepGate]
  · intro h
    simp [triggerStepGate, h]

/-- Witness for C1 at a concrete input: a step whose gate is off never passes
`evalStepGate`, yet with an active fill step in `Gates` mode the trigger gate
passes. -/
theorem evalStepGate_spec_witness :
    triggerStepGate
      { gate := false, gateProbability := 0, gateOffset := 0, retrigger := 0,
        retriggerProbability := 0, length := 0, lengthVariationRange := 0,
        lengthVariationProbability := 0, note := 0, noteVariationRange := 0,
        noteVariationProbability := 0, slide := false,
        condition := StepCondition.off } 0 7 5 true NoteFillMode.gates = true :=
  (evalStepGate_spec
    { gate := false, gateProbability := 0, gateOffset := 0, retrigger := 0,
      retriggerProbability := 0, length := 0, lengthVariationRange := 0,
      lengthVariationProbability := 0, note := 0, noteVariationRange := 0,
      noteVariationProbability := 0, slide := false,
      condition := StepCondition.off } 0 7 5 true).2 rfl

/-- C2: `evalStepCondition` with `Off` returns true and leaves
`prevCondition` unchanged; `Pre` returns `prevCondition` and `NotPre` its
negation, both without writing; every other branch stores its own result into
`prevCondition`; and `Loop(base, offset)` fires exactly when
`iteration % base == offset`. -/
theorem evalStepCondition_spec (iteration : Nat) (fillFlag prevCondition : Bool)
    (base offset : Nat) :
    evalStepCondition StepCondition.off iteration fillFlag prevCondition =
      (true, prevCondition) ∧
    evalStepCondition StepCondition.pre iteration fillFlag prevCondition =
      (prevCondition, prevCondition) ∧
    evalStepCondition StepCondition.notPre iteration fillFlag prevCondition =
      (!prevCondition, prevCondition) ∧
    ((evalStepCondition (StepCondition.loop base offset) iteration fillFlag
        prevCondition).1 = true ↔ iteration % base = offset) ∧
    (∀ cond : StepCondition,
      cond ≠ StepCondition.off → cond ≠ StepCondition.pre →
      cond ≠ StepCondition.notPre →
      (evalStepCondition cond iteration fillFlag prevCondition).2 =
        (evalStepCondition cond iteration fillFlag prevCondition).1) := by
  refine ⟨rfl, rfl, rfl, by simp [evalStepCondition], ?_⟩
  intro cond hoff hpre hnotpre
  cases cond <;> simp_all [evalStepCondition]

/-- C9: fill behavior applies on a step trigger only when the fresh sample in
`[0, 100)` is strictly below `fillAmount`: with `fillAmount = 100` the fill
step is active whenever `fill()` is held, with `fillAmount = 0` it is never
active, and when it is inactive all note-track fill flags are false and the
curve-track fill mode latches to `None`. -/
theorem evalFillStep_spec (fillHeld : Bool) (fillSample fillAmount : Nat)
    (noteMode : NoteFillMode) (curveMode : CurveFillMode) :
    (evalFillStep fillHeld fillSample fillAmount =
      (fillHeld && decide (fillSample < fillAmount))) ∧
    (fillSample < 100 → evalFillStep fillHeld fillSample 100 = fillHeld) ∧
    (evalFillStep fillHeld fillSample 0 = false) ∧
    (noteFillFlags false noteMode = (false, false, false)) ∧
    (curveFillModeLatch false curveMode = CurveFillMode.none) := by
  refine ⟨rfl, ?_, ?_, ?_, rfl⟩
  · intro h
    simp [evalFillStep, h]
  · simp [evalFillStep]
  · simp [noteFillFlags]

/-- Witness for C9 at concrete inputs: with sample 57, `fillAmount = 100`
activates the fill step when fill is held. -/
theorem evalFillStep_spec_witness :
    evalFillStep true 57 100 = true :=
  (evalFillStep_spec true 57 100 NoteFillMode.none CurveFillMode.none).2.1
    (by decide)

/-- C10: `changePattern` selects `min(pattern + 1, PATTERN_COUNT - 1)` as the
fill-source index; for a non-last pattern this is the next pattern, and for
the last pattern it is the pattern itself, so the fill-source sequence is the
current sequence. -/
theorem fillSequenceIndex_spec (pattern patternCount : Nat) :
    (fillSequenceIndex pattern patternCount =
      min (pattern + 1) (patternCount - 1)) ∧
    (pattern + 1 ≤ patternCount - 1 →
      fillSequenceIndex pattern patternCount = pattern + 1) ∧
    (pattern = patternCount - 1 →
      fillSequenceIndex pattern patternCount = pattern) := by
  refine ⟨rfl, ?_, ?_⟩ <;> intro h <;> simp [fillSequenceIndex] <;> omega

/-- Witness for C10 at concrete inputs: with 16 patterns, pattern 3 uses
pattern 4 as fill source and the last pattern 15 uses itself. -/
theorem fillSequenceIndex_spec_witness :
    fillSequenceIndex 3 16 = 4 ∧ fillSequenceIndex 15 16 = 15 :=
  ⟨(fillSequenceIndex_spec 3 16).2.1 (by decide),
   (fillSequenceIndex_spec 15 16).2.2 (by decide)⟩

/-- Bounds of `clampI`: the result lies in `[lo, hi]` whenever `lo ≤ hi`. -/
theorem clampI_bounds (x lo hi : Int) (h : lo ≤ hi) :
    lo ≤ clampI x lo hi ∧ clampI x lo hi ≤ hi := by
  unfold clampI
  split
  · omega
  · split <;> omega

/-- A concrete note step with all fields cleared, used as input for concrete
evaluations. -/
def zeroStep : NoteStep :=
  { gate := false, gateProbability := 0, gateOffset := 0, retrigger := 0,
    retriggerProbability := 0, length := 0, lengthVariationRange := 0,
    lengthVariationProbability := 0, note := 0, noteVariationRange := 0,
    noteVariationProbability := 0, slide := false,
    condition := StepCondition.off }

/-- Modelled from the spec: `NoteSequence::Length::clamp` and
`NoteSequence::Length::Range` are declared in `NoteSequence.h`, which is not
among the given sources.  The spec's value types satisfy `Range = Max + 1`
(its §8 gives the probability pass rate as `(p+1)/Range`), so the stored
length field is clamped into `[0, Range - 1]`. -/
def lengthFieldClamp (lengthRange : Nat) (x : Int) : Int :=
  clampI x 0 ((lengthRange : Int) - 1)

/-- Embedding of `evalStepLength` (`NoteTrackEngine.cpp`): the base length is
`NoteSequence::Length::clamp(step.length() + lengthBias) + 1`; when the drawn
sample passes `lengthVariationProbability`, a random offset in
`[0, abs(lengthVariationRange)]` carrying the sign of `lengthVariationRange`
is added and the sum clamped into `[0, Length::Range]`.  The two RNG draws
are modelled by `varSample` (for
`rng.nextRange(LengthVariationProbability::Range)`) and `offSample` (for
`rng.nextRange(abs(lengthVariationRange) + 1)`). -/
def evalStepLength (step : NoteStep) (lengthBias : Int) (lengthRange : Nat)
    (varSample : Nat) (offSample : Nat) : Int :=
  let length := lengthFieldClamp lengthRange (step.length + lengthBias) + 1
  if (varSample : Int) ≤ step.lengthVariationProbability then
    let offset : Int :=
      if step.lengthVariationRange = 0 then 0 else (offSample : Int)
    let offset := if step.lengthVariationRange < 0 then -offset else offset
    clampI (length + offset) 0 (lengthRange : Int)
  else
    length

/-- Embedding of the step-length-to-ticks conversion in
`NoteTrackEngine::triggerStep` (line 282):
`uint32_t stepLength = (divisor * evalStepLength(step, bias)) / Length::Range`. -/
def stepLengthTicks (divisor : Nat) (length : Int) (lengthRange : Nat) : Int :=
  ((divisor : Int) * length) / (lengthRange : Int)

/-- Counterexample to C3: on a step with `length = 0` and no bias, with the
length-variation sample failing, the code evaluates the length to
`Length::clamp(0) + 1 = 1`, not `clamp(0 + 0, 0, Range) = 0` as the claim
states (instantiated at `Range = 64`; the gap is the `+ 1` in
`evalStepLength` and holds for any `Range ≥ 1`). -/
theorem evalStepLength_counterexample :
    evalStepLength zeroStep 0 64 5 0 ≠ clampI (zeroStep.length + 0) 0 64 := by
  decide

/-- C3 (amended): the evaluated base length is
`Length::clamp(step.length + lengthBias) + 1`, i.e. one more than the clamp
of `step.length + lengthBias` into `[0, Range - 1]`; when the variation
sample passes, the signed offset is added and the sum clamped into
`[0, Range]`; the result always lies in `[0, Range]` (for `Range ≥ 1`), so
the gate length `(divisor * length) / Range` is at most `divisor`. -/
theorem evalStepLength_amended (step : NoteStep) (lengthBias : Int)
    (lengthRange : Nat) (varSample offSample : Nat) :
    (step.lengthVariationProbability < (varSample : Int) →
      evalStepLength step lengthBias lengthRange varSample offSample =
        lengthFieldClamp lengthRange (step.length + lengthBias) + 1) ∧
    ((varSample : Int) ≤ step.lengthVariationProbability →
      evalStepLength step lengthBias lengthRange varSample offSample =
        clampI (lengthFieldClamp lengthRange (step.length + lengthBias) + 1 +
          (if step.lengthVariationRange = 0 then 0
           else if step.lengthVariationRange < 0 then -(offSample : Int)
           else (offSample : Int))) 0 (lengthRange : Int)) ∧
    (1 ≤ lengthRange →
      0 ≤ evalStepLength step lengthBias lengthRange varSample offSample ∧
      evalStepLength step lengthBias lengthRange varSample offSample ≤
        (lengthRange : Nat)) := by
  refine ⟨?_, ?_, ?_⟩
  · intro h
    simp only [evalStepLength]
    rw [if_neg (by omega)]
  · intro h
    simp only [evalStepLength]
    rw [if_pos h]
    split <;> split <;> simp
  · intro h
    have hr : (0 : Int) ≤ (lengthRange : Int) - 1 := by
      omega
    have hbase := clampI_bounds (step.length + lengthBias) 0
      ((lengthRange : Int) - 1) hr
    simp only [evalStepLength]
    split
    · exact ⟨(clampI_bounds _ 0 _ (by omega)).1, (clampI_bounds _ 0 _ (by omega)).2⟩
    · simp only [lengthFieldClamp] at *
      omega

/-- Witness for C3's amended theorem at concrete inputs: the cleared step with
`Range = 64` and a failing variation sample evaluates to length 1, within
`[0, 64]`. -/
theorem evalStepLength_amended_witness :
    evalStepLength zeroStep 0 64 5 0 = 1 ∧
    evalStepLength zeroStep 0 64 5 0 ≤ (64 : Nat) := by
  have h1 := (evalStepLength_amended zeroStep 0 64 5 0).1 (by decide)
  have h2 := (evalStepLength_amended zeroStep 0 64 5 0).2.2 (by decide)
  exact ⟨by rw [h1]; decide, h2.2⟩

/-- Embedding of `evalStepRetrigger` (`NoteTrackEngine.cpp`): when the drawn
sample passes the bias-adjusted retrigger probability the retrigger count is
`step.retrigger() + 1`, otherwise 1.  The RNG draw
`rng.nextRange(RetriggerProbability::Range)` is modelled by `retrigSample`. -/
def evalStepRetrigger (step : NoteStep) (probabilityBias : Int)
    (retrigProbMax : Int) (retrigSample : Nat) : Nat :=
  if (retrigSample : Int) ≤
      clampI (step.retriggerProbability + probabilityBias) (-1) retrigProbMax then
    step.retrigger + 1
  else 1

/-- Embedding of the retrigger loop in `NoteTrackEngine::triggerStep`
(lines 285-291): `while (stepRetrigger-- > 0 && retriggerOffset <= stepLength)`
pushes a rising edge at `applySwing(tick + gateOffset + retriggerOffset)` and
a falling edge `retriggerLength / 2` ticks later, then advances the offset by
`retriggerLength`.  The queue pushes are modelled as the list of
`(tick, gate)` pairs in push order; `swing` abstracts `applySwing`; `base`
stands for `tick + gateOffset`. -/
def retriggerLoop (swing : Nat → Nat) (base retrigLength stepLength : Nat) :
    Nat → Nat → List (Nat × Bool)
  | 0, _ => []
  | n + 1, off =>
      if off ≤ stepLength then
        (swing (base + off), true) ::
          (swing (base + off + retrigLength / 2), false) ::
            retriggerLoop swing base retrigLength stepLength n (off + retrigLength)
      else []

/-- The pulse train generated from a list of pulse offsets: each offset
contributes a rising edge at `base + offset` and a falling edge
`retrigLength / 2` ticks later. -/
def pulsesAt (swing : Nat → Nat) (base retrigLength : Nat) :
    List Nat → List (Nat × Bool)
  | [] => []
  | off :: offs =>
      (swing (base + off), true) ::
        (swing (base + off + retrigLength / 2), false) ::
          pulsesAt swing base retrigLength offs

/-- Embedding of the gate-event pushes of `NoteTrackEngine::triggerStep` for
a passing step gate: for `stepRetrigger > 1` the retrigger loop runs with
`retriggerLength = divisor / stepRetrigger`, otherwise a single rising edge
at `tick + gateOffset` with the falling edge `stepLength` ticks later is
pushed. -/
def triggerStepGateEvents (swing : Nat → Nat)
    (tick gateOffset divisor stepLength : Nat) (stepRetrigger : Nat) :
    List (Nat × Bool) :=
  if 1 < stepRetrigger then
    retriggerLoop swing (tick + gateOffset) (divisor / stepRetrigger) stepLength
      stepRetrigger 0
  else
    [(swing (tick + gateOffset), true),
     (swing (tick + gateOffset + stepLength), false)]

/-- Closed form of the retrigger loop: it emits one pulse per offset
`off + k * retrigLength` for consecutive `k`, stopping at the fuel bound or
at the first offset exceeding `stepLength`. -/
theorem retriggerLoop_closed (swing : Nat → Nat) (base rl len : Nat) :
    ∀ (n off : Nat), retriggerLoop swing base rl len n off =
      pulsesAt swing base rl
        (((List.range n).map (fun k => off + k * rl)).takeWhile
          (fun o => decide (o ≤ len)))
  | 0, off => rfl
  | n + 1, off => by
      rw [List.range_succ_eq_map, List.map_cons, List.map_map]
      rw [show ((fun k => off + k * rl) ∘ Nat.succ) =
          (fun k => (off + rl) + k * rl) from funext fun k => by
        simp only [Function.comp, Nat.succ_mul]; ring]
      rw [List.takeWhile_cons]
      by_cases h : off ≤ len
      · rw [retriggerLoop, if_pos h]
        simp only [Nat.zero_mul, Nat.add_zero, decide_eq_true_eq, if_pos h]
        rw [pulsesAt]
        rw [retriggerLoop_closed swing base rl len n (off + rl)]
      · rw [retriggerLoop, if_neg h]
        simp only [Nat.zero_mul, Nat.add_zero, decide_eq_true_eq, if_neg h]
        rfl

/-- C4: when the retrigger-probability sample passes the count is
`step.retrigger + 1`, otherwise 1; for a count above 1 the step subdivides
into pulses at offsets `k * (divisor / count)` (consecutive `k` below the
count, dropped as soon as the offset exceeds the evaluated step length), each
pulse `divisor / (2 * count)` ticks wide; concretely, retrigger count 3 on a
step of full length (`(24 * 64) / 64 = 24` ticks) with divisor 24 queues
rising edges at tick offsets 0, 8, 16, each with a falling edge 4 ticks
later. -/
theorem evalStepRetrigger_spec (step : NoteStep) (probabilityBias : Int)
    (retrigProbMax : Int) (retrigSample : Nat) (swing : Nat → Nat)
    (tick gateOffset divisor stepLength count : Nat) :
    ((retrigSample : Int) ≤
        clampI (step.retriggerProbability + probabilityBias) (-1) retrigProbMax →
      evalStepRetrigger step probabilityBias retrigProbMax retrigSample =
        step.retrigger + 1) ∧
    (¬ ((retrigSample : Int) ≤
        clampI (step.retriggerProbability + probabilityBias) (-1) retrigProbMax) →
      evalStepRetrigger step probabilityBias retrigProbMax retrigSample = 1) ∧
    (1 < count →
      triggerStepGateEvents swing tick gateOffset divisor stepLength count =
        pulsesAt swing (tick + gateOffset) (divisor / count)
          (((List.range count).map (fun k => k * (divisor / count))).takeWhile
            (fun o => decide (o ≤ stepLength)))) ∧
    ((divisor / count) / 2 = divisor / (2 * count)) ∧
    (stepLengthTicks 24 64 64 = 24 ∧
      triggerStepGateEvents id 0 0 24 24 3 =
        [(0, true), (4, false), (8, true), (12, false), (16, true), (20, false)]) := by
  refine ⟨?_, ?_, ?_, ?_, by decide, by decide⟩
  · intro h
    simp [evalStepRetrigger, h]
  · intro h
    simp [evalStepRetrigger, h]
  · intro h
    rw [triggerStepGateEvents, if_pos h, retriggerLoop_closed]
    simp only [Nat.zero_add]
  · rw [Nat.div_div_eq_div_mul, Nat.mul_comm]

/-- Witness for C4 at concrete inputs: with retrigger 2 and a passing sample
the count is 3, and the concrete 3-pulse scenario of the claim holds. -/
theorem evalStepRetrigger_spec_witness :
    evalStepRetrigger
      { zeroStep with retrigger := 2, retriggerProbability := 7 } 0 7 3 = 3 ∧
    triggerStepGateEvents id 0 0 24 24 3 =
      [(0, true), (4, false), (8, true), (12, false), (16, true), (20, false)] :=
  ⟨(evalStepRetrigger_spec
      { zeroStep with retrigger := 2, retriggerProbability := 7 } 0 7 3 id
      0 0 24 24 3).1 (by decide),
   (evalStepRetrigger_spec zeroStep 0 7 3 id 0 0 24 24 3).2.2.2.2.2⟩

/-- MidiCv track configuration (`MidiCvTrack`, `part_000`), restricted to the
fields written by the clamping setters under verification; the `uint8_t`
fields are modelled as `Nat`. -/
structure MidiCvTrackState where
  voices : Nat
  lowNote : Nat
  highNote : Nat
  pitchBendRange : Nat
  retrigger : Bool
  deriving DecidableEq, Repr

/-- Embedding of `MidiCvTrack::setVoices`:
`_voices = clamp(voices, 1, 8)` assigned to a `uint8_t` field. -/
def setVoices (t : MidiCvTrackState) (voices : Int) : MidiCvTrackState :=
  { t with voices := (clampI voices 1 8).toNat }

/-- Embedding of `MidiCvTrack::setLowNote`:
`_lowNote = clamp(lowNote, 0, highNote())`. -/
def setLowNote (t : MidiCvTrackState) (lowNote : Int) : MidiCvTrackState :=
  { t with lowNote := (clampI lowNote 0 (t.highNote : Int)).toNat }

/-- Embedding of `MidiCvTrack::setHighNote`:
`_highNote = clamp(highNote, lowNote(), 127)`. -/
def setHighNote (t : MidiCvTrackState) (highNote : Int) : MidiCvTrackState :=
  { t with highNote := (clampI highNote (t.lowNote : Int) 127).toNat }

/-- Embedding of `MidiCvTrack::setPitchBendRange`:
`_pitchBendRange = clamp(pitchBendRange, 0, 48)`. -/
def setPitchBendRange (t : MidiCvTrackState) (pitchBendRange : Int) :
    MidiCvTrackState :=
  { t with pitchBendRange := (clampI pitchBendRange 0 48).toNat }

/-- Embedding of `MidiCvTrack::setRetrigger` (no clamping). -/
def setRetrigger (t : MidiCvTrackState) (retrigger : Bool) : MidiCvTrackState :=
  { t with retrigger := retrigger }

/-- Embedding of `MidiCvTrack::clear()` restricted to the modelled fields, in
source order: `setVoices(1); … setLowNote(0); setHighNote(127);
setPitchBendRange(2); … setRetrigger(false)`.  The C++ constructor invokes
`clear()` on indeterminate field contents, so `clear` acts on an arbitrary
prior state. -/
def clearMidiCvTrack (t : MidiCvTrackState) : MidiCvTrackState :=
  setRetrigger
    (setPitchBendRange (setHighNote (setLowNote (setVoices t 1) 0) 127) 2) false

/-- One call to a modelled `MidiCvTrack` setter. -/
inductive MidiCvSetterCall where
  | voices (v : Int)
  | lowNote (n : Int)
  | highNote (n : Int)
  | pitchBendRange (r : Int)
  | retrigger (b : Bool)
  deriving DecidableEq, Repr

/-- Dispatch one setter call to the corresponding setter. -/
def applySetter (t : MidiCvTrackState) : MidiCvSetterCall → MidiCvTrackState
  | .voices v => setVoices t v
  | .lowNote n => setLowNote t n
  | .highNote n => setHighNote t n
  | .pitchBendRange r => setPitchBendRange t r
  | .retrigger b => setRetrigger t b

/-- The C7 invariants: `voices ∈ [1, 8]`, `pitchBendRange ∈ [0, 48]` and
`lowNote ≤ highNote` (with the MIDI bound `highNote ≤ 127`). -/
def midiCvInvariant (t : MidiCvTrackState) : Prop :=
  1 ≤ t.voices ∧ t.voices ≤ 8 ∧ t.pitchBendRange ≤ 48 ∧
    t.lowNote ≤ t.highNote ∧ t.highNote ≤ 127

instance (t : MidiCvTrackState) : Decidable (midiCvInvariant t) := by
  unfold midiCvInvariant
  infer_instance

/-- Every single setter call preserves the C7 invariants. -/
theorem applySetter_invariant (t : MidiCvTrackState) (c : MidiCvSetterCall)
    (h : midiCvInvariant t) : midiCvInvariant (applySetter t c) := by
  obtain ⟨h1, h2, h3, h4, h5⟩ := h
  cases c with
  | voices v =>
      have hb := clampI_bounds v 1 8 (by omega)
      simp only [applySetter, setVoices, midiCvInvariant] at *
      omega
  | lowNote n =>
      have hb := clampI_bounds n 0 (t.highNote : Int) (by omega)
      simp only [applySetter, setLowNote, midiCvInvariant] at *
      omega
  | highNote n =>
      have hb := clampI_bounds n (t.lowNote : Int) 127 (by omega)
      simp only [applySetter, setHighNote, midiCvInvariant] at *
      omega
  | pitchBendRange r =>
      have hb := clampI_bounds r 0 48 (by omega)
      simp only [applySetter, setPitchBendRange, midiCvInvariant] at *
      omega
  | retrigger b =>
      simp only [applySetter, setRetrigger, midiCvInvariant] at *
      omega

/-- `clear()` establishes the C7 invariants from any prior field contents. -/
theorem clearMidiCvTrack_invariant (t : MidiCvTrackState) :
    midiCvInvariant (clearMidiCvTrack t) := by
  simp only [clearMidiCvTrack, setRetrigger, setPitchBendRange, setHighNote,
    setLowNote, setVoices, midiCvInvariant, clampI]
  norm_num
  split_ifs <;> omega

/-- C7: starting from `clear()`, after any sequence of `MidiCvTrack` setter
calls the invariants `voices ∈ [1, 8]`, `pitchBendRange ∈ [0, 48]` and
`lowNote ≤ highNote` (with `highNote ≤ 127`) all hold. -/
theorem midiCvTrack_setters_invariant (t : MidiCvTrackState)
    (calls : List MidiCvSetterCall) :
    midiCvInvariant (calls.foldl applySetter (clearMidiCvTrack t)) := by
  have hgen : ∀ (cs : List MidiCvSetterCall) (s : MidiCvTrackState),
      midiCvInvariant s → midiCvInvariant (cs.foldl applySetter s) := by
    intro cs
    induction cs with
    | nil => intro s hs; simpa using hs
    | cons c cs ih => intro s hs; exact ih _ (applySetter_invariant s c hs)
  exact hgen calls (clearMidiCvTrack t) (clearMidiCvTrack_invariant t)

/-- Embedding of `CurveTrackEngine::sequenceProgress()` (`part_002`):
`_currentStep < 0 ? 0.f : float(_currentStep - firstStep) / (lastStep - firstStep)`.
The `float` division is modelled over `ℚ`; a zero denominator (whose IEEE
result is NaN or an infinity, in no case a number of `[0, 1]`) is modelled as
`none`. -/
def sequenceProgress (currentStep firstStep lastStep : Int) : Option ℚ :=
  if currentStep < 0 then some 0
  else if lastStep - firstStep = 0 then none
  else some (((currentStep - firstStep : Int) : ℚ) / ((lastStep - firstStep : Int) : ℚ))

/-- Counterexample to C6: with `firstStep = 0`, `lastStep = 1` and
`currentStep = 5` (the range was shrunk after the step was computed, which
the claim's quantification over any range and any current step allows) the
result is 5, outside `[0, 1]`; and on a single-step range
(`firstStep = lastStep = 0`) with `currentStep = 0` the division is `0 / 0`,
which in `float` is NaN, not a value of `[0, 1]`. -/
theorem sequenceProgress_counterexample :
    (sequenceProgress 5 0 1 = some 5 ∧ ¬ ((0 : ℚ) ≤ 5 ∧ (5 : ℚ) ≤ 1)) ∧
    sequenceProgress 0 0 0 = none := by
  refine ⟨⟨?_, by norm_num⟩, ?_⟩
  · rw [sequenceProgress, if_neg (by omega), if_neg (by omega)]
    norm_num
  · rw [sequenceProgress, if_neg (by omega), if_pos (by omega)]

/-- C6 (amended): `sequenceProgress()` returns 0 when no step has been played
yet (`currentStep < 0`), and returns a value in `[0, 1]` whenever the range
is non-degenerate (`firstStep < lastStep`) and the current step lies inside
it. -/
theorem sequenceProgress_amended (currentStep firstStep lastStep : Int) :
    (currentStep < 0 →
      sequenceProgress currentStep firstStep lastStep = some 0) ∧
    (0 ≤ currentStep → firstStep ≤ currentStep → currentStep ≤ lastStep →
      firstStep < lastStep →
      ∃ q : ℚ, sequenceProgress currentStep firstStep lastStep = some q ∧
        0 ≤ q ∧ q ≤ 1) := by
  constructor
  · intro h
    simp [sequenceProgress, h]
  · intro h0 hfc hcl hfl
    refine ⟨((currentStep - firstStep : Int) : ℚ) /
      ((lastStep - firstStep : Int) : ℚ), ?_, ?_, ?_⟩
    · rw [sequenceProgress, if_neg (by omega), if_neg (by omega)]
    · apply div_nonneg
      · exact_mod_cast (by omega : (0 : Int) ≤ currentStep - firstStep)
      · exact_mod_cast (by omega : (0 : Int) ≤ lastStep - firstStep)
    · rw [div_le_one (by exact_mod_cast (by omega : (0 : Int) < lastStep - firstStep))]
      exact_mod_cast (by omega : currentStep - firstStep ≤ lastStep - firstStep)

/-- Witness for C6's amended theorem at concrete inputs: before any step the
progress is 0, and at step 1 of the range `[0, 2]` it is a value in
`[0, 1]`. -/
theorem sequenceProgress_amended_witness :
    sequenceProgress (-1) 3 7 = some 0 ∧
    ∃ q : ℚ, sequenceProgress 1 0 2 = some q ∧ 0 ≤ q ∧ q ≤ 1 :=
  ⟨(sequenceProgress_amended (-1) 3 7).1 (by decide),
   (sequenceProgress_amended 1 0 2).2 (by decide) (by decide) (by decide)
     (by decide)⟩

/-- Filesystem error codes (`fs::Error`).  Modelled from the spec: the full
enumeration lives in the `core/fs` headers, which are not among the sources;
only `OK` and one distinguished failure code are needed here. -/
inductive FsError where
  | ok
  | ioError
  deriving DecidableEq, Repr

/-- State of a `fs::FileWriter` / `fs::FileReader` after opening: the sticky
error code set at construction and the number of transfer calls
(`write` / `read`) performed on the handle; `finish()` reports the sticky
error code. -/
structure FileIoState where
  error : FsError
  transfers : Nat
  deriving DecidableEq, Repr

/-- One `write`/`read` call on the file handle. -/
def fileIoTransfer (s : FileIoState) : FileIoState :=
  { s with transfers := s.transfers + 1 }

/-- Embedding of `Settings::write(const char *path)` (`Settings.cpp`, lines
21-39).  The guard `if (fileWriter.error() != fs::OK) { fileWriter.error(); }`
evaluates the error code as a discarded expression statement — there is no
`return` — so the header write and the calibration serialization
(`calibrationTransfers` sink calls) run regardless of the open error, and the
function returns `fileWriter.finish()`.  The result is returned together
with the final writer state. -/
def settingsWriteFile (openError : FsError) (calibrationTransfers : Nat) :
    FsError × FileIoState :=
  let fileWriter : FileIoState := { error := openError, transfers := 0 }
  let fileWriter := fileIoTransfer fileWriter
  let fileWriter := fileIoTransfer^[calibrationTransfers] fileWriter
  (fileWriter.error, fileWriter)

/-- Embedding of `Settings::read(const char *path)` (`Settings.cpp`, lines
41-59), with the same missing `return` in its open-error guard: the header
read and calibration deserialization run regardless of the open error. -/
def settingsReadFile (openError : FsError) (calibrationTransfers : Nat) :
    FsError × FileIoState :=
  let fileReader : FileIoState := { error := openError, transfers := 0 }
  let fileReader := fileIoTransfer fileReader
  let fileReader := fileIoTransfer^[calibrationTransfers] fileReader
  (fileReader.error, fileReader)

/-- Modelled from the spec: the intended behavior of `Settings::write` — when
opening the settings file fails, return that error code immediately, without
serializing anything. -/
def settingsWriteFileIntended (openError : FsError) (calibrationTransfers : Nat) :
    FsError × FileIoState :=
  let fileWriter : FileIoState := { error := openError, transfers := 0 }
  if fileWriter.error ≠ FsError.ok then (fileWriter.error, fileWriter)
  else
    let fileWriter := fileIoTransfer fileWriter
    let fileWriter := fileIoTransfer^[calibrationTransfers] fileWriter
    (fileWriter.error, fileWriter)

/-- C8 (code bug): when opening fails, `Settings::write` and `Settings::read`
still perform the header and calibration transfers (2 transfers here) before
returning, because the open-error guard discards `fileWriter.error()` instead
of returning it; the intended behavior performs no transfer.  The returned
code coincides with the open error only because `finish()` reports the sticky
error. -/
theorem settings_missing_return :
    settingsWriteFile FsError.ioError 1 =
      (FsError.ioError, { error := FsError.ioError, transfers := 2 }) ∧
    settingsReadFile FsError.ioError 1 =
      (FsError.ioError, { error := FsError.ioError, transfers := 2 }) ∧
    settingsWriteFileIntended FsError.ioError 1 =
      (FsError.ioError, { error := FsError.ioError, transfers := 0 }) := by
  refine ⟨rfl, rfl, rfl⟩

/-- Modelled from the spec: the `Max` value of the 3-bit
`NoteSequence::GateProbability` value type (`NoteSequence.h` is not among the
sources; `Range = Max + 1 = 8` per the spec's pass rate `(p+1)/Range`). -/
def gateProbabilityMax : Int := 7

/-- Modelled from the spec: the `Max` value of
`NoteSequence::RetriggerProbability` (3-bit, like the other probability
fields). -/
def retriggerProbabilityMax : Int := 7

/-- Modelled from the spec: the `Max` value of
`NoteSequence::LengthVariationProbability`. -/
def lengthVariationProbabilityMax : Int := 7

/-- Modelled from the spec: the `Max` value of
`NoteSequence::NoteVariationProbability`. -/
def noteVariationProbabilityMax : Int := 7

/-- One entry of the `RecordHistory` ring: event type (note-on or note-off),
timestamp in ticks, and MIDI note number. -/
structure RecordEvent where
  isNoteOn : Bool
  tick : Nat
  note : Int
  deriving DecidableEq, Repr

/-- Record modes (`Types::RecordMode`): `Overwrite`, `StepRecord` and the
punch-in mode named by the spec. -/
inductive RecordMode where
  | overwrite
  | stepRecord
  | punch
  deriving DecidableEq, Repr

/-- Embedding of the `writeStep` lambda in `NoteTrackEngine::recordStep`
(lines 312-329): the target step receives `gate = true`, maxed-out
probabilities, no retrigger and no variation, length
`(lengthTicks * Length::Range) / divisor`, the converted note
(`noteFromMidiNote`, abstracted as `noteFromMidi`), and condition `Off`;
fields the lambda does not assign (gate offset, slide) keep their previous
values. -/
def writeStep (prev : NoteStep) (noteFromMidi : Int → Int)
    (lengthRange divisor : Nat) (note : Int) (lengthTicks : Nat) : NoteStep :=
  { prev with
    gate := true
    gateProbability := gateProbabilityMax
    retrigger := 0
    retriggerProbability := retriggerProbabilityMax
    length := ((lengthTicks * lengthRange) / divisor : Nat)
    lengthVariationRange := 0
    lengthVariationProbability := lengthVariationProbabilityMax
    note := noteFromMidi note
    noteVariationRange := 0
    noteVariationProbability := noteVariationProbabilityMax
    condition := StepCondition.off }

/-- Pair each history entry with its note end, which
`NoteTrackEngine::recordStep` takes as the next entry's timestamp, or the
current tick for the last entry
(`noteEnd = i + 1 < size ? history[i+1].tick : tick`). -/
def withNoteEnds (tick : Nat) : List RecordEvent → List (RecordEvent × Nat)
  | [] => []
  | [e] => [(e, tick)]
  | e :: e2 :: rest => (e, e2.tick) :: withNoteEnds tick (e2 :: rest)

/-- The per-event test of the scan loop in `NoteTrackEngine::recordStep`
(lines 341-366): non-note-on entries are skipped; a note-on starting inside
`[stepStart - margin, stepStart + margin)` records length
`min(noteEnd, stepEnd) - stepStart` when held through the step end and
`noteEnd - noteStart` when released earlier; a note-on from before the window
still held past `stepStart` records `min(noteEnd, stepEnd) - stepStart`.
Tick arithmetic is on `Nat`, faithful to the `uint32_t` source for
`margin ≤ stepStart` (no wrap-around). -/
def recordMatch (stepStart stepEnd margin : Nat) (e : RecordEvent)
    (noteEnd : Nat) : Option Nat :=
  if !e.isNoteOn then none
  else if stepStart - margin ≤ e.tick ∧ e.tick < stepStart + margin then
    if stepEnd ≤ noteEnd then some (min noteEnd stepEnd - stepStart)
    else some (noteEnd - e.tick)
  else if e.tick < stepStart ∧ stepStart < noteEnd then
    some (min noteEnd stepEnd - stepStart)
  else none

/-- The scan loop of `NoteTrackEngine::recordStep`: each matching note-on
overwrites the previous step via `writeStep` and sets `stepWritten`. -/
def recordScan (stepStart stepEnd margin : Nat) (noteFromMidi : Int → Int)
    (lengthRange divisor : Nat) :
    List (RecordEvent × Nat) → NoteStep × Bool → NoteStep × Bool
  | [], acc => acc
  | (e, noteEnd) :: rest, (step, written) =>
      match recordMatch stepStart stepEnd margin e noteEnd with
      | some lengthTicks =>
          recordScan stepStart stepEnd margin noteFromMidi lengthRange divisor
            rest
            (writeStep step noteFromMidi lengthRange divisor e.note lengthTicks,
              true)
      | none =>
          recordScan stepStart stepEnd margin noteFromMidi lengthRange divisor
            rest (step, written)

/-- Embedding of `NoteTrackEngine::recordStep(tick, divisor)` acting on the
content of the previous step.  The guard returns unchanged unless recording
is active, the record mode is not `StepRecord`, and `prevStep ≥ 0`; after the
scan, a selected track in `Overwrite` mode with nothing written clears the
previous step (`step.clear()` is in `NoteSequence.cpp`, not among the
sources; modelled from the spec as resetting the step to its cleared state
`zeroStep`). -/
def recordStep (recording : Bool) (mode : RecordMode) (selected : Bool)
    (prevStepIndex : Int) (noteFromMidi : Int → Int) (lengthRange : Nat)
    (history : List RecordEvent) (tick divisor : Nat)
    (prevContent : NoteStep) : NoteStep :=
  if ¬recording ∨ mode = RecordMode.stepRecord ∨ prevStepIndex < 0 then
    prevContent
  else
    let stepStart := tick - divisor
    let stepEnd := tick
    let margin := divisor / 2
    let result := recordScan stepStart stepEnd margin noteFromMidi lengthRange
      divisor (withNoteEnds tick history) (prevContent, false)
    if selected ∧ ¬result.2 ∧ mode = RecordMode.overwrite then zeroStep
    else result.1

/-- A later `writeStep` fully shadows an earlier one on the assigned fields,
so consecutive writes collapse to the last. -/
theorem writeStep_writeStep (prev : NoteStep) (noteFromMidi : Int → Int)
    (lengthRange divisor : Nat) (note1 note2 : Int) (len1 len2 : Nat) :
    writeStep (writeStep prev noteFromMidi lengthRange divisor note2 len2)
      noteFromMidi lengthRange divisor note1 len1 =
    writeStep prev noteFromMidi lengthRange divisor note1 len1 := rfl

/-- The last matching note-on of an event list, with its recorded length. -/
def lastRecordMatch (stepStart stepEnd margin : Nat) :
    List (RecordEvent × Nat) → Option (Int × Nat)
  | [] => none
  | (e, noteEnd) :: rest =>
      match lastRecordMatch stepStart stepEnd margin rest with
      | some m => some m
      | none =>
          (recordMatch stepStart stepEnd margin e noteEnd).map
            (fun lengthTicks => (e.note, lengthTicks))

/-- The scan loop computes the `writeStep` of the last matching note-on (or
leaves the accumulator untouched when nothing matches). -/
theorem recordScan_eq_lastMatch (stepStart stepEnd margin : Nat)
    (noteFromMidi : Int → Int) (lengthRange divisor : Nat) :
    ∀ (evs : List (RecordEvent × Nat)) (step : NoteStep) (written : Bool),
      recordScan stepStart stepEnd margin noteFromMidi lengthRange divisor evs
        (step, written) =
      match lastRecordMatch stepStart stepEnd margin evs with
      | some (note, lengthTicks) =>
          (writeStep step noteFromMidi lengthRange divisor note lengthTicks,
            true)
      | none => (step, written) := by
  intro evs
  induction evs with
  | nil => intro step written; rfl
  | cons pair rest ih =>
      intro step written
      obtain ⟨e, noteEnd⟩ := pair
      cases hm : recordMatch stepStart stepEnd margin e noteEnd with
      | some lengthTicks =>
          simp only [recordScan, lastRecordMatch, hm, ih]
          cases hl : lastRecordMatch stepStart stepEnd margin rest with
          | some m => obtain ⟨n, l⟩ := m; simp [writeStep_writeStep]
          | none => simp
      | none =>
          simp only [recordScan, lastRecordMatch, hm, ih]
          cases hl : lastRecordMatch stepStart stepEnd margin rest with
          | some m => obtain ⟨n, l⟩ := m; simp
          | none => simp

/-- Counterexample to C5: with `tick = 48`, `divisor = 24` (so
`prevStepStart = 24`, `margin = 12`) and two note-on events at ticks 20
(note 10) and 30 (note 20), both matching, `recordStep` leaves note 20 — the
LAST matching note, not the first as the claim states (each later match
overwrites the step).  Moreover a note-on at tick 36, exactly
`prevStepStart + margin` and hence inside the claim's closed window
`[12, 36]`, is not written at all: the scan tests
`noteStart < stepStart + margin` strictly. -/
theorem recordStep_counterexample :
    (recordStep true RecordMode.overwrite true 0 id 64
      [⟨true, 20, 10⟩, ⟨true, 30, 20⟩] 48 24 zeroStep).note = 20 ∧
    (20 : Int) ≠ 10 ∧
    (recordStep true RecordMode.overwrite false 0 id 64
      [⟨true, 36, 9⟩] 48 24 zeroStep).gate = false := by
  refine ⟨by decide, by decide, by decide⟩

/-- C5 (amended): at a step boundary while recording in a mode other than
`StepRecord` (i.e. `Overwrite` or `Punch`) with a previous step, `recordStep`
writes the LAST matching note-on of the record history into the previous
step — a note-on matches when its timestamp lies in the half-open window
`[prevStepStart - margin, prevStepStart + margin)` with
`prevStepStart = tick - divisor` and `margin = divisor / 2`, or when it
starts before the window and is still held past `prevStepStart` — with
maxed-out probabilities and length `(noteDuration * Length::Range) / divisor`;
if the track is selected, no note matched, and the mode is `Overwrite`, the
previous step is cleared. -/
theorem recordStep_amended (mode : RecordMode) (selected : Bool)
    (prevStepIndex : Int) (noteFromMidi : Int → Int) (lengthRange : Nat)
    (history : List RecordEvent) (tick divisor : Nat)
    (prevContent : NoteStep) :
    (mode ≠ RecordMode.stepRecord → 0 ≤ prevStepIndex →
      recordStep true mode selected prevStepIndex noteFromMidi lengthRange
        history tick divisor prevContent =
      match lastRecordMatch (tick - divisor) tick (divisor / 2)
          (withNoteEnds tick history) with
      | some (note, lengthTicks) =>
          writeStep prevContent noteFromMidi lengthRange divisor note
            lengthTicks
      | none =>
          if selected ∧ mode = RecordMode.overwrite then zeroStep
          else prevContent) ∧
    (∀ (note : Int) (lengthTicks : Nat),
      (writeStep prevContent noteFromMidi lengthRange divisor note
        lengthTicks).gate = true ∧
      (writeStep prevContent noteFromMidi lengthRange divisor note
        lengthTicks).gateProbability = gateProbabilityMax ∧
      (writeStep prevContent noteFromMidi lengthRange divisor note
        lengthTicks).retriggerProbability = retriggerProbabilityMax ∧
      (writeStep prevContent noteFromMidi lengthRange divisor note
        lengthTicks).lengthVariationProbability =
          lengthVariationProbabilityMax ∧
      (writeStep prevContent noteFromMidi lengthRange divisor note
        lengthTicks).noteVariationProbability = noteVariationProbabilityMax ∧
      (writeStep prevContent noteFromMidi lengthRange divisor note
        lengthTicks).length = ((lengthTicks * lengthRange) / divisor : Nat) ∧
      (writeStep prevContent noteFromMidi lengthRange divisor note
        lengthTicks).note = noteFromMidi note) := by
  constructor
  · intro hmode hprev
    simp only [recordStep]
    rw [if_neg (by simp [hmode]; omega)]
    simp only [recordScan_eq_lastMatch]
    cases hl : lastRecordMatch (tick - divisor) tick (divisor / 2)
        (withNoteEnds tick history) with
    | some m => obtain ⟨n, l⟩ := m; simp
    | none => simp
  · intro note lengthTicks
    exact ⟨rfl, rfl, rfl, rfl, rfl, rfl, rfl⟩

/-- Witness for C5's amended theorem at the concrete two-note history: the
previous step ends up as the `writeStep` of the last matching note (note 20,
24 ticks held through the step end). -/
theorem recordStep_amended_witness :
    recordStep true RecordMode.overwrite true 0 id 64
      [⟨true, 20, 10⟩, ⟨true, 30, 20⟩] 48 24 zeroStep =
      writeStep zeroStep id 64 24 20 24 := by
  have h := (recordStep_amended RecordMode.overwrite true 0 id 64
    [⟨true, 20, 10⟩, ⟨true, 30, 20⟩] 48 24 zeroStep).1 (by decide) (by decide)
  rw [h]
  decide

/-- Witness for C2 at concrete inputs: `Off` leaves a false `prevCondition`
untouched while returning true, and `Loop(4, 0)` fires at iteration 8. -/
theorem evalStepCondition_spec_witness :
    evalStepCondition StepCondition.off 5 true false = (true, false) ∧
    (evalStepCondition (StepCondition.loop 4 0) 8 false true).1 = true :=
  ⟨(evalStepCondition_spec 5 true false 4 0).1,
   (evalStepCondition_spec 8 false true 4 0).2.2.2.1.mpr (by decide)⟩
